/-
Verification of the koishi-plugin-sleep mute-resolution engine.

Shallow embedding of the plugin's core logic:
  * `src/clag/utils.ts`   — duration engine, seasonal events, immunity records
  * `src/clag/chain.ts`   — chain-reaction ("revenge") rights
  * `src/clag/index.ts`   — normal-mode resolution, random target, roulette redraw
  * `src/mute.ts`         — guild-member roster with cache and fallback
  * `src/repeat.ts`       — roulette sessions (join/resolve) and probability ramp
  * `src/utils.ts`        — time-window gate, probability manager
  * `src/magicmute.ts`    — time-of-day centered probability curve
  * `src/index.ts` / `src/sleep.ts` — sleep command allowed-hours check

Numbers are modelled over ℚ (JS numbers) and ℤ (timestamps in ms, seconds).
Randomness sources (drawn integers, uniform reals, booleans) are explicit
parameters, matching the spec's requirement that the random source be
substitutable.  Stateful maps are association lists keyed by user id (the
platform/guild components of the real keys are fixed within one session).
-/
import Mathlib

namespace Sleep

/-- JavaScript `Math.round`: round half up, `Math.round x = ⌊x + 1/2⌋`. -/
def jsRound (q : ℚ) : ℤ := ⌊q + 1/2⌋

theorem jsRound_mono {a b : ℚ} (h : a ≤ b) : jsRound a ≤ jsRound b :=
  Int.floor_le_floor (by linarith)

theorem jsRound_intCast (n : ℤ) : jsRound (n : ℚ) = n := by
  unfold jsRound
  rw [Int.floor_eq_iff]
  constructor <;> [push_cast; push_cast] <;> linarith

/-! ## Seasonal events (`src/clag/utils.ts` lines 17–23, 68–75) -/

structure SeasonalEvent where
  month : ℕ
  day : ℕ
  key : String
  multiplier : ℚ
deriving Repr, DecidableEq

/-- Source `SEASONAL_EVENTS` table from `src/clag/utils.ts`. -/
def SEASONAL_EVENTS : List SeasonalEvent :=
  [ ⟨1, 1, "new_year", 1/2⟩
  , ⟨4, 1, "april_fool", 2⟩
  , ⟨10, 31, "halloween", 3/2⟩
  , ⟨12, 25, "christmas", 4/5⟩
  , ⟨12, 31, "new_year_eve", 6/5⟩ ]

/-- Source `getCurrentSeasonalEffect`, with today's (month, day) passed explicitly. -/
def getCurrentSeasonalEffect (month day : ℕ) : Option SeasonalEvent :=
  SEASONAL_EVENTS.find? (fun e => e.month = month ∧ e.day = day)

/-! ## Configuration (`src/clag` plugin `Config`) -/

structure ClagConfig where
  min : ℚ
  max : ℚ
  enableSeasonalEvents : Bool
  enableChainReaction : Bool
  enableSpecialEffects : Bool
  criticalHitProbability : ℚ
  immunityProbability : ℚ
  chainReactionExpiry : ℚ
deriving Repr, DecidableEq

structure Config where
  clag : ClagConfig
  maxAllowedDuration : ℚ
  enableMessage : Bool
  probability : ℚ
deriving Repr, DecidableEq

/-! ## Duration engine (`calculateMuteDuration`, `src/clag/utils.ts` lines 90–112)

`randSeconds` is the integer drawn by `new Random().int(min*60, max*60)` and
`variation` the jitter `Math.random() * 0.3 - 0.15`; both are explicit
parameters of the embedding. -/

/-- JS truthiness test used by `baseDuration ? baseDuration * 60 : …`. -/
def jsTruthy : Option ℚ → Bool
  | none => false
  | some q => q ≠ 0

def calculateMuteDuration (config : Config) (month day : ℕ)
    (baseDuration : Option ℚ) (isCriticalHit : Bool)
    (randSeconds : ℤ) (variation : ℚ) : ℚ :=
  let d0 : ℚ :=
    if jsTruthy baseDuration then baseDuration.getD 0 * 60 else (randSeconds : ℚ)
  let d1 : ℚ :=
    if config.clag.enableSeasonalEvents then
      match getCurrentSeasonalEffect month day with
      | some effect => (jsRound (d0 * effect.multiplier) : ℚ)
      | none => d0
    else d0
  let d2 : ℚ := if isCriticalHit then (jsRound (d1 * 2) : ℚ) else d1
  let d3 : ℚ := (jsRound (d2 * (1 + variation)) : ℚ)
  max 5 (min d3 (config.maxAllowedDuration * 60))

/-- Chain-mode duration (`src/clag/chain.ts` line 58):
`Math.round(calculateMuteDuration(config) * 1.5)`. -/
def chainMuteDuration (config : Config) (month day : ℕ)
    (randSeconds : ℤ) (variation : ℚ) : ℤ :=
  jsRound (calculateMuteDuration config month day none false randSeconds variation * (3/2))

theorem calculateMuteDuration_ge_five (config : Config) (month day : ℕ)
    (baseDuration : Option ℚ) (crit : Bool) (randSeconds : ℤ) (variation : ℚ) :
    (5 : ℚ) ≤ calculateMuteDuration config month day baseDuration crit randSeconds variation :=
  le_max_left 5 _

theorem calculateMuteDuration_le_ceiling (config : Config) (month day : ℕ)
    (baseDuration : Option ℚ) (crit : Bool) (randSeconds : ℤ) (variation : ℚ)
    (hM : (5 : ℚ) ≤ config.maxAllowedDuration * 60) :
    calculateMuteDuration config month day baseDuration crit randSeconds variation ≤
      config.maxAllowedDuration * 60 :=
  max_le hM (min_le_right _ _)

theorem calculateMuteDuration_int (config : Config) (month day : ℕ)
    (baseDuration : Option ℚ) (crit : Bool) (randSeconds : ℤ) (variation : ℚ)
    (m : ℤ) (hm : config.maxAllowedDuration * 60 = (m : ℚ)) :
    ∃ n : ℤ, calculateMuteDuration config month day baseDuration crit randSeconds variation
      = (n : ℚ) := by
  unfold calculateMuteDuration
  rw [hm]
  exact ⟨max 5 (min (jsRound _) m), by push_cast; rfl⟩

/-- Configuration used for the concrete duration computations: duration range
fixed at 10 minutes, ceiling `maxAllowedDuration = 10` minutes, seasonal
events disabled. -/
def durationCfg : Config :=
  { clag :=
      { min := 10, max := 10
      , enableSeasonalEvents := false
      , enableChainReaction := false
      , enableSpecialEffects := false
      , criticalHitProbability := 0
      , immunityProbability := 0
      , chainReactionExpiry := 24 }
  , maxAllowedDuration := 10
  , enableMessage := false
  , probability := 1 }

/-- Claim C1 (amended): every duration computed by `calculateMuteDuration`
(any combination of explicit base duration, critical hit, seasonal multiplier
and jitter) is an integer number of seconds `d` with
`5 ≤ d ≤ maxAllowedDuration * 60`, provided the configured ceiling
`maxAllowedDuration * 60` is an integer that is at least 5.  The
chain-reaction escalation path multiplies the already-clamped engine result
by 1.5 and rounds, so its duration `d` satisfies only
`5 ≤ d ≤ round(maxAllowedDuration * 60 * 1.5)` and can exceed
`maxAllowedDuration * 60`. -/
theorem duration_engine_bounds (config : Config) (month day : ℕ)
    (baseDuration : Option ℚ) (crit : Bool) (randSeconds : ℤ) (variation : ℚ)
    (m : ℤ) (hm : config.maxAllowedDuration * 60 = (m : ℚ))
    (hM : (5 : ℚ) ≤ config.maxAllowedDuration * 60) :
    (∃ n : ℤ,
      calculateMuteDuration config month day baseDuration crit randSeconds variation = (n : ℚ)) ∧
    (5 : ℚ) ≤ calculateMuteDuration config month day baseDuration crit randSeconds variation ∧
    calculateMuteDuration config month day baseDuration crit randSeconds variation ≤
      config.maxAllowedDuration * 60 ∧
    5 ≤ chainMuteDuration config month day randSeconds variation ∧
    chainMuteDuration config month day randSeconds variation ≤
      jsRound (config.maxAllowedDuration * 60 * (3/2)) := by
  refine ⟨calculateMuteDuration_int config month day baseDuration crit randSeconds variation m hm,
    calculateMuteDuration_ge_five config month day baseDuration crit randSeconds variation,
    calculateMuteDuration_le_ceiling config month day baseDuration crit randSeconds variation hM,
    ?_, ?_⟩
  · have h5 := calculateMuteDuration_ge_five config month day none false randSeconds variation
    have : jsRound (15/2) ≤ chainMuteDuration config month day randSeconds variation :=
      jsRound_mono (by nlinarith)
    have h8 : jsRound (15/2 : ℚ) = 8 := by norm_num [jsRound]
    omega
  · have hle := calculateMuteDuration_le_ceiling config month day none false randSeconds
      variation hM
    exact jsRound_mono (by nlinarith)

/-- Witness for `duration_engine_bounds` at the concrete configuration
`durationCfg` (ceiling 600 s), base draw 600 s, zero jitter, no critical. -/
theorem duration_engine_bounds_witness :
    (∃ n : ℤ, calculateMuteDuration durationCfg 2 2 none false 600 0 = (n : ℚ)) ∧
    (5 : ℚ) ≤ calculateMuteDuration durationCfg 2 2 none false 600 0 ∧
    calculateMuteDuration durationCfg 2 2 none false 600 0 ≤
      durationCfg.maxAllowedDuration * 60 ∧
    5 ≤ chainMuteDuration durationCfg 2 2 600 0 ∧
    chainMuteDuration durationCfg 2 2 600 0 ≤
      jsRound (durationCfg.maxAllowedDuration * 60 * (3/2)) :=
  duration_engine_bounds durationCfg 2 2 none false 600 0 600
    (by norm_num [durationCfg]) (by norm_num [durationCfg])

/-- Counterexample to claim C1 as stated: with the 10-minute ceiling
configuration, a base draw of 600 seconds and zero jitter, the
chain-reaction escalation path produces `round(600 * 1.5) = 900` seconds,
which exceeds `maxAllowedDuration * 60 = 600`. -/
theorem chain_duration_exceeds_ceiling :
    chainMuteDuration durationCfg 2 2 600 0 = 900 ∧
    ¬ ((chainMuteDuration durationCfg 2 2 600 0 : ℚ) ≤ durationCfg.maxAllowedDuration * 60) := by
  have h : chainMuteDuration durationCfg 2 2 600 0 = 900 := by
    norm_num [chainMuteDuration, calculateMuteDuration, jsTruthy, jsRound, durationCfg]
  refine ⟨h, ?_⟩
  rw [h]
  norm_num [durationCfg]

/-! ## Time-window gates

Three separate gates appear in the source:
  * `Utils.isInTimeRange` (`src/utils.ts` lines 31–36), half-open;
  * `isWithinMagicTime` (`src/magicmute.ts` lines 71–88), half-open;
  * the sleep command's inline check (`src/sleep.ts` lines 47–61 and
    `src/index.ts` lines 134–146), which includes the boundary hour.
The current hour (`new Date().getHours()`, an integer 0–23) is passed
explicitly. -/

/-- Hour-level core of `Utils.isInTimeRange`:
`end < start ? hour >= start || hour < end : hour >= start && hour < end`. -/
def isInTimeRangeCore (s e hour : ℕ) : Bool :=
  if e < s then decide (hour ≥ s) || decide (hour < e)
  else decide (hour ≥ s) && decide (hour < e)

/-- Source `range.split('-')` at the character level. -/
def splitDashAux : List Char → List Char → List (List Char)
  | [], acc => [acc.reverse]
  | c :: rest, acc =>
    if c = '-' then acc.reverse :: splitDashAux rest []
    else splitDashAux rest (c :: acc)

/-- JS `Number` restricted to non-empty decimal numerals; any other component
yields `none` (`NaN` in JS, whose comparisons are all false, so the gate
returns false — see `isInTimeRange`). -/
def jsNumberNat (cs : List Char) : Option ℕ :=
  if cs ≠ [] ∧ cs.all (·.isDigit) then
    some (cs.foldl (fun n c => n * 10 + (c.toNat - Char.toNat '0')) 0)
  else none

/-- Source `range.split('-').map(Number)` as used by the gates. -/
def parseRange (range : String) : Option (ℕ × ℕ) :=
  match (splitDashAux range.data []).map jsNumberNat with
  | [some s, some e] => some (s, e)
  | _ => none

/-- Source `Utils.isInTimeRange` (`src/utils.ts` lines 31–36).  An empty range string
returns true; a malformed one makes every JS `NaN` comparison false, hence
the gate false. -/
def isInTimeRange (range : String) (hour : ℕ) : Bool :=
  if range = "" then true
  else
    match parseRange range with
    | some (s, e) => isInTimeRangeCore s e hour
    | none => false

/-- Source `isWithinMagicTime` (`src/magicmute.ts` lines 71–88) at the hour level:
identical half-open logic to `Utils.isInTimeRange`. -/
def isWithinMagicTime (s e hour : ℕ) : Bool :=
  if e < s then decide (hour ≥ s) || decide (hour < e)
  else decide (hour ≥ s) && decide (hour < e)

/-- The sleep command's allowed-hours check (`src/sleep.ts` lines 51–53):
`startHour > endHour ? (h >= start || h <= end) : (h >= start && h <= end)`.
The boundary hour `end` is included. -/
def sleepTimeAllowed (s e hour : ℕ) : Bool :=
  if s > e then decide (hour ≥ s) || decide (hour ≤ e)
  else decide (hour ≥ s) && decide (hour ≤ e)

/-- Claim C7 (amended): for integer hours, `Utils.isInTimeRange` (and the
magic-mute gate, which is identical) returns true iff `h ≥ S ∨ h < E` for a
wrapping window (`E < S`) and iff `S ≤ h < E` otherwise, the boundary hour
`E` itself excluded; parsed "S-E" strings reduce to that hour-level gate.
The sleep command's inline allowed-hours check, however, *includes* the
boundary hour: it returns true iff `h ≥ S ∨ h ≤ E` when `S > E` and iff
`S ≤ h ≤ E` otherwise. -/
theorem time_window_gates (s e hour : ℕ) :
    (isInTimeRangeCore s e hour = true ↔
      (if e < s then s ≤ hour ∨ hour < e else s ≤ hour ∧ hour < e)) ∧
    isWithinMagicTime s e hour = isInTimeRangeCore s e hour ∧
    (sleepTimeAllowed s e hour = true ↔
      (if e < s then s ≤ hour ∨ hour ≤ e else s ≤ hour ∧ hour ≤ e)) ∧
    (∀ range : String, range ≠ "" → parseRange range = some (s, e) →
      isInTimeRange range hour = isInTimeRangeCore s e hour) ∧
    (isInTimeRange "9-18" 10 = true ∧ isInTimeRange "9-18" 19 = false ∧
      isInTimeRange "22-6" 23 = true ∧ isInTimeRange "22-6" 5 = true ∧
      isInTimeRange "22-6" 12 = false) := by
  refine ⟨?_, rfl, ?_, ?_, by decide, by decide, by decide, by decide, by decide⟩
  · unfold isInTimeRangeCore
    split <;> simp
  · unfold sleepTimeAllowed
    rcases Nat.lt_or_ge e s with h | h
    · rw [if_pos h, if_pos h]
      simp
    · rw [if_neg (by omega), if_neg (by omega)]
      simp
  · intro range hne hparse
    unfold isInTimeRange
    rw [if_neg hne, hparse]

/-- Witness for `time_window_gates` at the spec's own example "9-18", hour 10
(in range for the half-open gates). -/
theorem time_window_gates_witness :
    (isInTimeRangeCore 9 18 10 = true ↔
      (if 18 < 9 then 9 ≤ 10 ∨ 10 < 18 else 9 ≤ 10 ∧ 10 < 18)) ∧
    isWithinMagicTime 9 18 10 = isInTimeRangeCore 9 18 10 ∧
    (sleepTimeAllowed 9 18 10 = true ↔
      (if 18 < 9 then 9 ≤ 10 ∨ 10 ≤ 18 else 9 ≤ 10 ∧ 10 ≤ 18)) ∧
    (∀ range : String, range ≠ "" → parseRange range = some (9, 18) →
      isInTimeRange range 10 = isInTimeRangeCore 9 18 10) ∧
    (isInTimeRange "9-18" 10 = true ∧ isInTimeRange "9-18" 19 = false ∧
      isInTimeRange "22-6" 23 = true ∧ isInTimeRange "22-6" 5 = true ∧
      isInTimeRange "22-6" 12 = false) :=
  time_window_gates 9 18 10

/-- Counterexample to claim C7 as stated: at the boundary hour `E = 18` of
the window "9-18", the sleep command's allowed-hours gate returns true, yet
the claimed half-open characterization (`9 ≤ 18 ∧ 18 < 18`) is false. -/
theorem sleep_gate_includes_boundary :
    ¬ (sleepTimeAllowed 9 18 18 = true ↔ (9 ≤ 18 ∧ 18 < 18)) := by
  decide

/-! ## Probability manager (`Utils.createProbabilityManager`, `src/utils.ts`
lines 186–196)

The manager closes over a mutable `prob`, initialised to
`config.probabilityInitial`; `get`, `reset` and `increase` are modelled as
functions of that state. -/

/-- Source `ProbMode` enum from `src/repeat.ts`. -/
inductive ProbMode where
  | fixed
  | increasing
deriving Repr, DecidableEq

structure ProbConfig where
  probabilityInitial : ℚ
  probabilityMode : ProbMode
deriving Repr, DecidableEq

/-- Source `get`: the current rate in INCREASING mode, the base rate otherwise. -/
def pmGet (config : ProbConfig) (prob : ℚ) : ℚ :=
  if config.probabilityMode = ProbMode.increasing then prob else config.probabilityInitial

/-- Source `reset`: back to the base rate (a no-op outside INCREASING mode). -/
def pmReset (config : ProbConfig) (prob : ℚ) : ℚ :=
  if config.probabilityMode = ProbMode.increasing then config.probabilityInitial else prob

/-- Source `increase`: `prob = Math.min(prob * 1.1, 0.9)` in INCREASING mode. -/
def pmIncrease (config : ProbConfig) (prob : ℚ) : ℚ :=
  if config.probabilityMode = ProbMode.increasing then min (prob * (11/10)) (9/10) else prob

/-- The rate after `n` consecutive `increase()` calls from the base rate. -/
def rateAfter (config : ProbConfig) (n : ℕ) : ℚ :=
  (pmIncrease config)^[n] config.probabilityInitial

theorem rateAfter_succ (config : ProbConfig) (n : ℕ) :
    rateAfter config (n + 1) = pmIncrease config (rateAfter config n) :=
  Function.iterate_succ_apply' _ _ _

theorem pmIncrease_mem (config : ProbConfig) (p : ℚ) (hp0 : 0 ≤ p) (hp9 : p ≤ 9/10) :
    0 ≤ pmIncrease config p ∧ pmIncrease config p ≤ 9/10 := by
  unfold pmIncrease
  split
  · exact ⟨le_min (by nlinarith) (by norm_num), min_le_right _ _⟩
  · exact ⟨hp0, hp9⟩

theorem rateAfter_nonneg_le (config : ProbConfig)
    (h0 : 0 ≤ config.probabilityInitial) (h9 : config.probabilityInitial ≤ 9/10) :
    ∀ n : ℕ, 0 ≤ rateAfter config n ∧ rateAfter config n ≤ 9/10 := by
  intro n
  induction n with
  | zero => exact ⟨h0, h9⟩
  | succ k ih =>
    rw [rateAfter_succ]
    exact pmIncrease_mem config (rateAfter config k) ih.1 ih.2

/-- Claim C8 (amended): in INCREASING mode, provided the configured base rate
lies in `[0, 0.9]`, the rate after `N` consecutive `increase()` calls is
non-decreasing in `N` and never exceeds `0.9` (hence never exceeds `1.0`);
a single `reset()` sets the rate exactly back to the base rate; in FIXED
mode `get()` always returns the base rate.  (The code's cap is `0.9`, not
`1.0`, so a base rate above `0.9` makes the very first `increase()` *lower*
the rate — see the counterexample.) -/
theorem probability_ramp_properties (config : ProbConfig) (n : ℕ)
    (hmode : config.probabilityMode = ProbMode.increasing)
    (h0 : 0 ≤ config.probabilityInitial) (h9 : config.probabilityInitial ≤ 9/10) :
    rateAfter config n ≤ rateAfter config (n + 1) ∧
    rateAfter config n ≤ 9/10 ∧
    rateAfter config n ≤ 1 ∧
    pmGet config (pmReset config (rateAfter config n)) = config.probabilityInitial ∧
    (∀ (config' : ProbConfig) (p : ℚ), config'.probabilityMode = ProbMode.fixed →
      pmGet config' p = config'.probabilityInitial) := by
  obtain ⟨hge, hle⟩ := rateAfter_nonneg_le config h0 h9 n
  refine ⟨?_, hle, le_trans hle (by norm_num), ?_, ?_⟩
  · rw [rateAfter_succ]
    unfold pmIncrease
    rw [if_pos hmode]
    exact le_min (by nlinarith) hle
  · unfold pmGet pmReset
    rw [if_pos hmode, if_pos hmode]
  · intro config' p hfixed
    simp [pmGet, hfixed]

/-- Base configuration for the ramp computations: base rate 0.2 (the
documented default), INCREASING mode. -/
def rampCfg : ProbConfig := { probabilityInitial := 1/5, probabilityMode := ProbMode.increasing }

/-- Witness for `probability_ramp_properties` at base rate 0.2, N = 3. -/
theorem probability_ramp_properties_witness :
    rateAfter rampCfg 3 ≤ rateAfter rampCfg (3 + 1) ∧
    rateAfter rampCfg 3 ≤ 9/10 ∧
    rateAfter rampCfg 3 ≤ 1 ∧
    pmGet rampCfg (pmReset rampCfg (rateAfter rampCfg 3)) = rampCfg.probabilityInitial ∧
    (∀ (config' : ProbConfig) (p : ℚ), config'.probabilityMode = ProbMode.fixed →
      pmGet config' p = config'.probabilityInitial) :=
  probability_ramp_properties rampCfg 3 rfl (by norm_num [rampCfg]) (by norm_num [rampCfg])

/-- Configuration with a base rate of 0.95, above the code's 0.9 cap. -/
def rampCfg95 : ProbConfig := { probabilityInitial := 19/20, probabilityMode := ProbMode.increasing }

/-- Counterexample to claim C8 as stated: with a configured base rate of
0.95 in INCREASING mode, the very first `increase()` call *lowers* the rate
to the 0.9 cap (`min(0.95 * 1.1, 0.9) = 0.9 < 0.95`), so the rate after N
calls is not non-decreasing in N. -/
theorem ramp_not_monotone_above_cap :
    rateAfter rampCfg95 1 < rateAfter rampCfg95 0 := by
  norm_num [rateAfter, pmIncrease, rampCfg95]

/-! ## Magic-mute time-of-day curve (`calculateCurrentProbability`,
`src/magicmute.ts` lines 94–129)

`startHour`/`endHour` come from `config.activeTime.split('-')`, the current
hour from `new Date().getHours()`; all three are explicit parameters. -/

/-- Source `totalHours = endHour > startHour ? end - start : end + 24 - start`. -/
def magicTotalHours (s e : ℕ) : ℤ :=
  if s < e then (e : ℤ) - s else (e : ℤ) + 24 - s

/-- Source `hoursFromStart` as computed in `calculateCurrentProbability`. -/
def magicHoursFromStart (s e h : ℕ) : ℤ :=
  if s < e then (h : ℤ) - s
  else if s ≤ h then (h : ℤ) - s else (h : ℤ) + 24 - s

/-- Source `calculateCurrentProbability` with the window hours, current hour and the
configured percentage bounds as parameters. -/
def calculateCurrentProbability (s e h : ℕ) (minProbability maxProbability : ℚ) : ℚ :=
  let totalHours : ℚ := (magicTotalHours s e : ℚ)
  let hoursFromStart : ℚ := (magicHoursFromStart s e h : ℚ)
  let midPoint : ℚ := totalHours / 2
  let distanceFromMid : ℚ := |hoursFromStart - midPoint|
  let normalizedDistance : ℚ := 1 - distanceFromMid / midPoint
  minProbability / 100 + normalizedDistance * (maxProbability / 100 - minProbability / 100)

theorem magicTotalHours_pos (s e : ℕ) (hs : s ≤ 23) : 0 < magicTotalHours s e := by
  unfold magicTotalHours
  split <;> omega

theorem magicHoursFromStart_range (s e h : ℕ) (hs : s ≤ 23) (hh : h ≤ 23)
    (hwin : isWithinMagicTime s e h = true) :
    0 ≤ magicHoursFromStart s e h ∧ magicHoursFromStart s e h < magicTotalHours s e := by
  unfold isWithinMagicTime at hwin
  unfold magicHoursFromStart magicTotalHours
  rcases Nat.lt_or_ge e s with hlt | hge
  · rw [if_pos hlt] at hwin
    simp only [Bool.or_eq_true, decide_eq_true_eq] at hwin
    rw [if_neg (by omega)]
    rcases hwin with hw | hw
    · rw [if_pos hw]
      omega
    · split <;> omega
  · rw [if_neg (by omega)] at hwin
    simp only [Bool.and_eq_true, decide_eq_true_eq] at hwin
    rcases Nat.lt_or_ge s e with hlt' | hge'
    · rw [if_pos hlt']
      omega
    · omega

theorem magicCurveAux (F T minP maxP : ℚ) (hT : 0 < T) (hF0 : 0 ≤ F) (hFT : F ≤ T)
    (hle : minP ≤ maxP) :
    minP / 100 + (1 - |F - T/2| / (T/2)) * (maxP / 100 - minP / 100) =
      minP / 100 + (1 - 2 * |F / T - 1/2|) * (maxP / 100 - minP / 100) ∧
    (F = T/2 →
      minP / 100 + (1 - |F - T/2| / (T/2)) * (maxP / 100 - minP / 100) = maxP / 100) ∧
    (F = 0 →
      minP / 100 + (1 - |F - T/2| / (T/2)) * (maxP / 100 - minP / 100) = minP / 100) ∧
    (F = T →
      minP / 100 + (1 - |F - T/2| / (T/2)) * (maxP / 100 - minP / 100) = minP / 100) ∧
    minP / 100 ≤ minP / 100 + (1 - |F - T/2| / (T/2)) * (maxP / 100 - minP / 100) ∧
    minP / 100 + (1 - |F - T/2| / (T/2)) * (maxP / 100 - minP / 100) ≤ maxP / 100 := by
  have hT2 : (0 : ℚ) < T/2 := by linarith
  have hdist : |F - T/2| ≤ T/2 := abs_le.mpr ⟨by linarith, by linarith⟩
  have hnd0 : 0 ≤ 1 - |F - T/2| / (T/2) := by
    have := (div_le_one hT2).mpr hdist
    linarith
  have hnd1 : 1 - |F - T/2| / (T/2) ≤ 1 := by
    have : 0 ≤ |F - T/2| / (T/2) := div_nonneg (abs_nonneg _) (le_of_lt hT2)
    linarith
  refine ⟨?_, ?_, ?_, ?_, by nlinarith, by nlinarith⟩
  · have h1 : F / T - 1/2 = (F - T/2) / T := by
      rw [div_sub_div _ _ (ne_of_gt hT) (two_ne_zero)]
      ring_nf
    have h2 : |F - T/2| / (T/2) = 2 * |F / T - 1/2| := by
      rw [h1, abs_div, abs_of_pos hT]
      field_simp
      ring
    rw [h2]
  · intro hmid
    rw [hmid]
    rw [sub_self, abs_zero, zero_div, sub_zero, one_mul]
    ring
  · intro hzero
    rw [hzero]
    rw [zero_sub, abs_neg, abs_of_pos hT2, div_self (ne_of_gt hT2)]
    ring
  · intro hend
    rw [hend]
    have : T - T/2 = T/2 := by ring
    rw [this, abs_of_pos hT2, div_self (ne_of_gt hT2)]
    ring

/-- Claim C9: the time-of-day mute probability equals
`minProb + (1 - 2*|position - 0.5|) * (maxProb - minProb)` with
`position = hoursFromStart / totalHours` (probabilities are the configured
percentages divided by 100); it is exactly `maxProb` at the window midpoint,
exactly `minProb` at both window edges, and for every in-window hour it lies
within `[minProb, maxProb]`. -/
theorem magic_mute_curve (s e h : ℕ) (minP maxP : ℚ)
    (hs : s ≤ 23) (hh : h ≤ 23)
    (hwin : isWithinMagicTime s e h = true) (hle : minP ≤ maxP) :
    calculateCurrentProbability s e h minP maxP =
      minP / 100 +
        (1 - 2 * |(magicHoursFromStart s e h : ℚ) / (magicTotalHours s e : ℚ) - 1/2|) *
          (maxP / 100 - minP / 100) ∧
    ((magicHoursFromStart s e h : ℚ) = (magicTotalHours s e : ℚ) / 2 →
      calculateCurrentProbability s e h minP maxP = maxP / 100) ∧
    (magicHoursFromStart s e h = 0 →
      calculateCurrentProbability s e h minP maxP = minP / 100) ∧
    ((magicHoursFromStart s e h : ℚ) = (magicTotalHours s e : ℚ) →
      calculateCurrentProbability s e h minP maxP = minP / 100) ∧
    minP / 100 ≤ calculateCurrentProbability s e h minP maxP ∧
    calculateCurrentProbability s e h minP maxP ≤ maxP / 100 := by
  have hTZ : 0 < magicTotalHours s e := magicTotalHours_pos s e hs
  have hT : (0 : ℚ) < (magicTotalHours s e : ℚ) := by exact_mod_cast hTZ
  obtain ⟨hF0, hFT⟩ := magicHoursFromStart_range s e h hs hh hwin
  have hF0' : (0 : ℚ) ≤ (magicHoursFromStart s e h : ℚ) := by exact_mod_cast hF0
  have hFT' : (magicHoursFromStart s e h : ℚ) ≤ (magicTotalHours s e : ℚ) := by
    exact_mod_cast le_of_lt hFT
  have hall := magicCurveAux (magicHoursFromStart s e h : ℚ) (magicTotalHours s e : ℚ)
    minP maxP hT hF0' hFT' hle
  have hcurve : calculateCurrentProbability s e h minP maxP =
      minP / 100 + (1 - |(magicHoursFromStart s e h : ℚ) - (magicTotalHours s e : ℚ)/2| /
        ((magicTotalHours s e : ℚ)/2)) * (maxP / 100 - minP / 100) := rfl
  rw [hcurve]
  exact ⟨hall.1, hall.2.1, fun hz => hall.2.2.1 (by exact_mod_cast hz),
    hall.2.2.2.1, hall.2.2.2.2.1, hall.2.2.2.2.2⟩

/-- Witness for `magic_mute_curve` on the wrapped window "22-6" at hour 2
(the window midpoint), probability range 5%–50%. -/
theorem magic_mute_curve_witness :
    calculateCurrentProbability 22 6 2 5 50 =
      5 / 100 +
        (1 - 2 * |(magicHoursFromStart 22 6 2 : ℚ) / (magicTotalHours 22 6 : ℚ) - 1/2|) *
          (50 / 100 - 5 / 100) ∧
    ((magicHoursFromStart 22 6 2 : ℚ) = (magicTotalHours 22 6 : ℚ) / 2 →
      calculateCurrentProbability 22 6 2 5 50 = 50 / 100) ∧
    (magicHoursFromStart 22 6 2 = 0 →
      calculateCurrentProbability 22 6 2 5 50 = 5 / 100) ∧
    ((magicHoursFromStart 22 6 2 : ℚ) = (magicTotalHours 22 6 : ℚ) →
      calculateCurrentProbability 22 6 2 5 50 = 5 / 100) ∧
    (5 : ℚ) / 100 ≤ calculateCurrentProbability 22 6 2 5 50 ∧
    calculateCurrentProbability 22 6 2 5 50 ≤ 50 / 100 :=
  magic_mute_curve 22 6 2 5 50 (by norm_num) (by norm_num) (by decide) (by norm_num)

/-! ## Guild-member roster (`getGuildMembers`, `src/mute.ts` lines 45–81)

The roster fetch (`session.bot.getGuildMemberIter`) either throws
(`fetch = none`) or yields a sequence of members whose `member.user?.id` may
be absent (modelled `Option String`, with `""` for a present-but-falsy id).
The per-guild cache entry and the current time are explicit. -/

structure CacheEntry where
  data : List String
  expiry : ℤ
deriving Repr, DecidableEq

/-- The ids pushed by the iterator loop:
`if (userId && String(userId) !== String(session.selfId)) members.push(...)`. -/
def memberIds (selfId : String) (members : List (Option String)) : List String :=
  members.filterMap fun m =>
    match m with
    | some uid => if uid ≠ "" ∧ uid ≠ selfId then some uid else none
    | none => none

/-- The fetch path of `getGuildMembers` (cache miss): on success with a
non-empty filtered list, return and cache it for one hour (3600000 ms); on an
empty filtered list or a thrown fetch, return `[session.userId]` and leave
the cache alone. -/
def fetchGuildMembers (cache : Option CacheEntry) (now : ℤ)
    (fetch : Option (List (Option String))) (selfId userId : String) :
    List String × Option CacheEntry :=
  match fetch with
  | none => ([userId], cache)
  | some ms =>
    let members := memberIds selfId ms
    if members = [] then ([userId], cache)
    else (members, some ⟨members, now + 3600000⟩)

/-- Source `getGuildMembers`: serve a fresh cache entry (`cached?.expiry > Date.now()`),
otherwise fetch. -/
def getGuildMembers (cache : Option CacheEntry) (now : ℤ)
    (fetch : Option (List (Option String))) (selfId userId : String) :
    List String × Option CacheEntry :=
  match cache with
  | some c => if now < c.expiry then (c.data, some c) else
      fetchGuildMembers (some c) now fetch selfId userId
  | none => fetchGuildMembers none now fetch selfId userId

/-- The cache is stale or absent. -/
def cacheMiss (cache : Option CacheEntry) (now : ℤ) : Prop :=
  cache = none ∨ ∃ c, cache = some c ∧ c.expiry ≤ now

theorem memberIds_ne_selfId (selfId : String) (ms : List (Option String)) :
    ∀ uid ∈ memberIds selfId ms, uid ≠ "" ∧ uid ≠ selfId := by
  intro uid huid
  unfold memberIds at huid
  obtain ⟨m, _, hm⟩ := List.mem_filterMap.mp huid
  match m with
  | none => exact absurd hm (by simp)
  | some v =>
    change (if v ≠ "" ∧ v ≠ selfId then some v else none) = some uid at hm
    by_cases hv : v ≠ "" ∧ v ≠ selfId
    · rw [if_pos hv] at hm
      cases hm
      exact hv
    · rw [if_neg hv] at hm
      exact absurd hm (by simp)

theorem fetchGuildMembers_cases (cache : Option CacheEntry) (now : ℤ)
    (fetch : Option (List (Option String))) (selfId userId : String) :
    (fetch = none →
      fetchGuildMembers cache now fetch selfId userId = ([userId], cache)) ∧
    (∀ ms, fetch = some ms → memberIds selfId ms = [] →
      fetchGuildMembers cache now fetch selfId userId = ([userId], cache)) ∧
    (∀ ms, fetch = some ms → memberIds selfId ms ≠ [] →
      fetchGuildMembers cache now fetch selfId userId =
        (memberIds selfId ms, some ⟨memberIds selfId ms, now + 3600000⟩)) ∧
    (fetchGuildMembers cache now fetch selfId userId).1 ≠ [] := by
  refine ⟨?_, ?_, ?_, ?_⟩
  · intro hf
    rw [hf]
    rfl
  · intro ms hf hempty
    rw [hf]
    unfold fetchGuildMembers
    simp [hempty]
  · intro ms hf hne
    rw [hf]
    unfold fetchGuildMembers
    simp [hne]
  · unfold fetchGuildMembers
    match fetch with
    | none => simp
    | some ms =>
      by_cases hempty : memberIds selfId ms = []
      · simp [hempty]
      · simp [hempty]

theorem getGuildMembers_miss (cache : Option CacheEntry) (now : ℤ)
    (fetch : Option (List (Option String))) (selfId userId : String)
    (hm : cacheMiss cache now) :
    getGuildMembers cache now fetch selfId userId =
      fetchGuildMembers cache now fetch selfId userId := by
  rcases hm with hnone | ⟨c, hc, hexp⟩
  · rw [hnone]
    rfl
  · subst hc
    show (if now < c.expiry then (c.data, some c)
      else fetchGuildMembers (some c) now fetch selfId userId) = _
    rw [if_neg (by omega)]

theorem getGuildMembers_ne_nil (cache : Option CacheEntry) (now : ℤ)
    (fetch : Option (List (Option String))) (selfId userId : String)
    (hnonempty : ∀ c, cache = some c → c.data ≠ []) :
    (getGuildMembers cache now fetch selfId userId).1 ≠ [] := by
  match hc : cache with
  | some c =>
    show ((if now < c.expiry then (c.data, some c)
      else fetchGuildMembers (some c) now fetch selfId userId)).1 ≠ []
    by_cases hfresh : now < c.expiry
    · rw [if_pos hfresh]
      exact hnonempty c rfl
    · rw [if_neg hfresh]
      exact (fetchGuildMembers_cases (some c) now fetch selfId userId).2.2.2
  | none => exact (fetchGuildMembers_cases none now fetch selfId userId).2.2.2

/-- Claim C10: `getGuildMembers` never throws (it is total) and never
returns an empty list.  On a cache miss: a successful fetch with at least
one (truthy) member id other than the bot's returns exactly those ids, bot
excluded, and caches them with expiry `now + 3600000` (one hour); a thrown
fetch, or one yielding no such member, returns the one-element list
`[session.userId]`.  A fresh cache entry is served as-is, and every entry
the function writes is non-empty, so provided all cache entries are
non-empty the result is never empty. -/
theorem getGuildMembers_spec (cache : Option CacheEntry) (now : ℤ)
    (fetch : Option (List (Option String))) (selfId userId : String) :
    (∀ c, cache = some c → now < c.expiry →
      getGuildMembers cache now fetch selfId userId = (c.data, some c)) ∧
    (cacheMiss cache now → fetch = none →
      getGuildMembers cache now fetch selfId userId = ([userId], cache)) ∧
    (∀ ms, cacheMiss cache now → fetch = some ms → memberIds selfId ms ≠ [] →
      getGuildMembers cache now fetch selfId userId =
        (memberIds selfId ms, some ⟨memberIds selfId ms, now + 3600000⟩)) ∧
    (∀ ms, cacheMiss cache now → fetch = some ms → memberIds selfId ms = [] →
      getGuildMembers cache now fetch selfId userId = ([userId], cache)) ∧
    (∀ uid ∈ memberIds selfId (fetch.getD []), uid ≠ selfId) ∧
    ((∀ c, cache = some c → c.data ≠ []) →
      (getGuildMembers cache now fetch selfId userId).1 ≠ []) := by
  refine ⟨?_, ?_, ?_, ?_, ?_, getGuildMembers_ne_nil cache now fetch selfId userId⟩
  · intro c hc hfresh
    subst hc
    show (if now < c.expiry then (c.data, some c)
      else fetchGuildMembers (some c) now fetch selfId userId) = _
    rw [if_pos hfresh]
  · intro hm hf
    rw [getGuildMembers_miss cache now fetch selfId userId hm]
    exact (fetchGuildMembers_cases cache now fetch selfId userId).1 hf
  · intro ms hm hf hne
    rw [getGuildMembers_miss cache now fetch selfId userId hm]
    exact (fetchGuildMembers_cases cache now fetch selfId userId).2.2.1 ms hf hne
  · intro ms hm hf hempty
    rw [getGuildMembers_miss cache now fetch selfId userId hm]
    exact (fetchGuildMembers_cases cache now fetch selfId userId).2.1 ms hf hempty
  · intro uid huid
    exact (memberIds_ne_selfId selfId (fetch.getD []) uid huid).2

/-! ## Random target finalization (`determineFinalTarget`,
`src/clag/index.ts` lines 189–210)

With no explicit target, the function takes the whole `getGuildMembers`
roster (which excludes only the bot, not the acting user) and indexes it at
the drawn position `idx`; an empty roster sends "no valid members" and
yields no target. -/

inductive TargetResult where
  | aborted
  | chosen (target : String)
deriving Repr, DecidableEq

def determineFinalTarget (inputTargetId : Option String)
    (cache : Option CacheEntry) (now : ℤ) (fetch : Option (List (Option String)))
    (selfId userId : String) (idx : ℕ) : TargetResult × Option CacheEntry :=
  match inputTargetId with
  | some t => (.chosen t, cache)
  | none =>
    let r := getGuildMembers cache now fetch selfId userId
    if r.1 = [] then (.aborted, r.2)
    else (.chosen (r.1.getD idx ""), r.2)

theorem determineFinalTarget_none_eq (cache : Option CacheEntry) (now : ℤ)
    (fetch : Option (List (Option String))) (selfId userId : String) (idx : ℕ) :
    determineFinalTarget none cache now fetch selfId userId idx =
      (if (getGuildMembers cache now fetch selfId userId).1 = []
       then (TargetResult.aborted, (getGuildMembers cache now fetch selfId userId).2)
       else (TargetResult.chosen ((getGuildMembers cache now fetch selfId userId).1.getD idx ""),
             (getGuildMembers cache now fetch selfId userId).2)) := rfl

/-- Claim C6 (amended): with no explicit target, the random target is drawn
from the `getGuildMembers` roster, which excludes the bot's identity but
*not* the acting user; the "no valid members" abort happens exactly when
that roster is empty, which `getGuildMembers` never produces — in
particular, when the roster fetch fails (or yields nobody but the bot) the
function falls back to `[session.userId]` and the acting user themself is
chosen as the random target rather than the operation aborting. -/
theorem determine_final_target_spec (cache : Option CacheEntry) (now : ℤ)
    (fetch : Option (List (Option String))) (selfId userId : String) (idx : ℕ) :
    (∀ t, (determineFinalTarget (some t) cache now fetch selfId userId idx).1 =
      .chosen t) ∧
    ((getGuildMembers cache now fetch selfId userId).1 = [] →
      (determineFinalTarget none cache now fetch selfId userId idx).1 = .aborted) ∧
    (∀ ms, (getGuildMembers cache now fetch selfId userId).1 = ms → ms ≠ [] →
      idx < ms.length →
      (determineFinalTarget none cache now fetch selfId userId idx).1 =
        .chosen (ms.getD idx "") ∧ ms.getD idx "" ∈ ms) ∧
    (∀ uid ∈ memberIds selfId (fetch.getD []), uid ≠ selfId) ∧
    (cacheMiss cache now → fetch = none →
      (determineFinalTarget none cache now fetch selfId userId 0).1 =
        .chosen userId) ∧
    ((∀ c, cache = some c → c.data ≠ []) →
      (determineFinalTarget none cache now fetch selfId userId idx).1 ≠ .aborted) := by
  refine ⟨fun t => rfl, ?_, ?_,
    fun uid huid => (memberIds_ne_selfId selfId (fetch.getD []) uid huid).2, ?_, ?_⟩
  · intro hempty
    rw [determineFinalTarget_none_eq]
    simp [hempty]
  · intro ms hms hne hidx
    rw [determineFinalTarget_none_eq]
    rw [hms]
    refine ⟨by simp [hne], ?_⟩
    have : ms.getD idx "" = ms.get ⟨idx, hidx⟩ := List.getD_eq_getElem ms "" hidx
    rw [this]
    exact List.get_mem ms idx hidx
  · intro hm hf
    rw [determineFinalTarget_none_eq]
    rw [getGuildMembers_miss cache now fetch selfId userId hm,
      (fetchGuildMembers_cases cache now fetch selfId userId).1 hf]
    simp
  · intro hnonempty
    have hne := getGuildMembers_ne_nil cache now fetch selfId userId hnonempty
    rw [determineFinalTarget_none_eq]
    simp [hne]

/-- Witness for `determine_final_target_spec` at a concrete empty cache,
failed fetch, actor "alice", bot "bot". -/
theorem determine_final_target_spec_witness :
    (∀ t, (determineFinalTarget (some t) none 0 none "bot" "alice" 0).1 =
      .chosen t) ∧
    ((getGuildMembers none 0 none "bot" "alice").1 = [] →
      (determineFinalTarget none none 0 none "bot" "alice" 0).1 = .aborted) ∧
    (∀ ms, (getGuildMembers none 0 none "bot" "alice").1 = ms → ms ≠ [] →
      0 < ms.length →
      (determineFinalTarget none none 0 none "bot" "alice" 0).1 =
        .chosen (ms.getD 0 "") ∧ ms.getD 0 "" ∈ ms) ∧
    (∀ uid ∈ memberIds "bot" ((none : Option (List (Option String))).getD []), uid ≠ "bot") ∧
    (cacheMiss none 0 → (none : Option (List (Option String))) = none →
      (determineFinalTarget none none 0 none "bot" "alice" 0).1 =
        .chosen "alice") ∧
    ((∀ c, (none : Option CacheEntry) = some c → c.data ≠ []) →
      (determineFinalTarget none none 0 none "bot" "alice" 0).1 ≠ .aborted) :=
  determine_final_target_spec none 0 none "bot" "alice" 0

/-- Counterexample to claim C6 as stated: when the roster fetch fails
(throws), the operation does not abort — `getGuildMembers` falls back to
`[session.userId]` and the *acting user* ("alice") becomes the randomly
chosen final target, contradicting both the claimed abort on fetch failure
and the claimed exclusion of the acting user from the draw. -/
theorem fetch_failure_targets_acting_user :
    (determineFinalTarget none none 0 none "bot" "alice" 0).1 =
      TargetResult.chosen "alice" ∧
    (determineFinalTarget none none 0 none "bot" "alice" 0).1 ≠
      TargetResult.aborted := by
  constructor
  · rfl
  · intro h
    exact TargetResult.noConfusion (h.symm.trans rfl)

/-! ## Chain-reaction rights (`src/clag/chain.ts`)

`chainReactionRights` is a `Map` keyed by `platform:guildId:userId`; within
one session the platform/guild parts are fixed, so keys are user ids.
Timestamps are milliseconds, modelled over ℚ (the configured expiry window
`chainReactionExpiry` is a JS number of hours). -/

structure ChainRight where
  expiryTime : ℚ
  sourceUser : String
deriving Repr, DecidableEq

abbrev ChainStore := List (String × ChainRight)

/-- Source `Map.get` over an association list keyed by strings. -/
def storeGet {α : Type} : List (String × α) → String → Option α
  | [], _ => none
  | (k', v) :: rest, k => if k' = k then some v else storeGet rest k

/-- Source `Map.delete`. -/
def storeDelete {α : Type} (s : List (String × α)) (k : String) : List (String × α) :=
  s.filter (fun e => e.1 ≠ k)

/-- Source `Map.set`. -/
def storeSet {α : Type} (s : List (String × α)) (k : String) (v : α) : List (String × α) :=
  (k, v) :: storeDelete s k

theorem storeGet_delete_self {α : Type} (s : List (String × α)) (k : String) :
    storeGet (storeDelete s k) k = none := by
  induction s with
  | nil => rfl
  | cons e rest ih =>
    obtain ⟨ek, ev⟩ := e
    unfold storeDelete at *
    by_cases he : ek ≠ k
    · rw [List.filter_cons_of_pos (by simpa using he)]
      simp only [storeGet]
      rw [if_neg he]
      exact ih
    · rw [List.filter_cons_of_neg (by simpa using he)]
      exact ih

theorem storeGet_delete_other {α : Type} (s : List (String × α)) (k k' : String)
    (hne : k' ≠ k) : storeGet (storeDelete s k') k = storeGet s k := by
  induction s with
  | nil => rfl
  | cons e rest ih =>
    obtain ⟨ek, ev⟩ := e
    unfold storeDelete at *
    by_cases he : ek ≠ k'
    · rw [List.filter_cons_of_pos (by simpa using he)]
      simp only [storeGet]
      by_cases hek : ek = k
      · rw [if_pos hek, if_pos hek]
      · rw [if_neg hek, if_neg hek]
        exact ih
    · rw [List.filter_cons_of_neg (by simpa using he)]
      rw [ih]
      simp only [storeGet]
      push_neg at he
      rw [if_neg (by rw [he]; exact fun h => hne h)]

theorem storeGet_set_other {α : Type} (s : List (String × α)) (k k' : String) (v : α)
    (hne : k' ≠ k) : storeGet (storeSet s k' v) k = storeGet s k := by
  unfold storeSet
  simp only [storeGet]
  rw [if_neg hne]
  exact storeGet_delete_other s k k' hne

/-- Source `grantChainReactionRight` (`src/clag/chain.ts` lines 15–27): store a
right expiring `expiryHours` hours from now. -/
def grantChainReactionRight (s : ChainStore) (userId sourceUserId : String)
    (now expiryHours : ℚ) : ChainStore :=
  storeSet s userId ⟨now + expiryHours * 60 * 60 * 1000, sourceUserId⟩

/-- Source `checkChainReactionRight` (`src/clag/chain.ts` lines 32–42): if a right
exists and `right.expiryTime > Date.now()`, delete it ("用掉即删除" — used
means deleted) and report it; otherwise report no right, leaving the store
alone. -/
def checkChainReactionRight (s : ChainStore) (userId : String) (now : ℚ) :
    Option ChainRight × ChainStore :=
  match storeGet s userId with
  | some right =>
      if now < right.expiryTime then (some right, storeDelete s userId)
      else (none, s)
  | none => (none, s)

/-- Observable actions of `executeChainMode`, in program order. -/
inductive ChainEvent where
  | consumeRight (userId : String)
  | sendNoRight
  | applyMute (target : String) (duration : ℤ)
  | announceChainSuccess
  | recordMute (target : String)
  | grantRight (userId sourceUser : String)
deriving Repr, DecidableEq

/-- Source `executeChainMode` (`src/clag/chain.ts` lines 47–89): check (and thereby
consume) the actor's right; with none, send "no right" and stop; otherwise
compute the escalated duration, attempt the mute (`muteOk` is the external
call's outcome), and on success announce, record history and — when chain
reactions are enabled — grant the newly muted target a fresh right against
the actor.  Returns (success, store, event trace). -/
def executeChainMode (config : Config) (s : ChainStore) (actor target : String)
    (now : ℚ) (month day : ℕ) (randSeconds : ℤ) (variation : ℚ) (muteOk : Bool) :
    Bool × ChainStore × List ChainEvent :=
  let res := checkChainReactionRight s actor now
  match res.1 with
  | none => (false, res.2, [.sendNoRight])
  | some _ =>
    let d := chainMuteDuration config month day randSeconds variation
    if muteOk then
      let s2 := if config.clag.enableChainReaction
        then grantChainReactionRight res.2 target actor now config.clag.chainReactionExpiry
        else res.2
      (true, s2,
        .consumeRight actor :: .applyMute target d :: .announceChainSuccess ::
          .recordMute target ::
          (if config.clag.enableChainReaction then [.grantRight target actor] else []))
    else (false, res.2, [.consumeRight actor, .applyMute target d])

theorem checkChainReactionRight_of_none (s : ChainStore) (userId : String) (now : ℚ)
    (hg : storeGet s userId = none) :
    checkChainReactionRight s userId now = (none, s) := by
  unfold checkChainReactionRight
  rw [hg]

theorem checkChainReactionRight_of_expired (s : ChainStore) (userId : String) (now : ℚ)
    (r : ChainRight) (hg : storeGet s userId = some r) (hexp : ¬ now < r.expiryTime) :
    checkChainReactionRight s userId now = (none, s) := by
  unfold checkChainReactionRight
  rw [hg]
  simp only
  rw [if_neg hexp]

theorem checkChainReactionRight_of_valid (s : ChainStore) (userId : String) (now : ℚ)
    (r : ChainRight) (hg : storeGet s userId = some r) (hexp : now < r.expiryTime) :
    checkChainReactionRight s userId now = (some r, storeDelete s userId) := by
  unfold checkChainReactionRight
  rw [hg]
  simp only
  rw [if_pos hexp]

theorem executeChainMode_of_check_none (config : Config) (s s' : ChainStore)
    (actor target : String) (now : ℚ) (month day : ℕ) (randSeconds : ℤ)
    (variation : ℚ) (muteOk : Bool)
    (hc : checkChainReactionRight s actor now = (none, s')) :
    executeChainMode config s actor target now month day randSeconds variation muteOk =
      (false, s', [.sendNoRight]) := by
  simp only [executeChainMode, hc]

theorem executeChainMode_of_check_some (config : Config) (s s' : ChainStore)
    (actor target : String) (now : ℚ) (month day : ℕ) (randSeconds : ℤ)
    (variation : ℚ) (muteOk : Bool) (r : ChainRight)
    (hc : checkChainReactionRight s actor now = (some r, s')) :
    executeChainMode config s actor target now month day randSeconds variation muteOk =
      (if muteOk then
        (true,
         if config.clag.enableChainReaction
           then grantChainReactionRight s' target actor now config.clag.chainReactionExpiry
           else s',
         .consumeRight actor ::
           .applyMute target (chainMuteDuration config month day randSeconds variation) ::
           .announceChainSuccess :: .recordMute target ::
           (if config.clag.enableChainReaction then [.grantRight target actor] else []))
       else (false, s',
         [.consumeRight actor,
          .applyMute target (chainMuteDuration config month day randSeconds variation)])) := by
  simp only [executeChainMode, hc]

/-- After any `executeChainMode` call by `actor` against a distinct target,
the actor's stored right (if any) is already expired at the call time. -/
theorem executeChainMode_consumes (config : Config) (s : ChainStore)
    (actor target : String) (now : ℚ) (month day : ℕ) (randSeconds : ℤ)
    (variation : ℚ) (muteOk : Bool) (hne : target ≠ actor) :
    ∀ r, storeGet
        (executeChainMode config s actor target now month day randSeconds variation muteOk).2.1
        actor = some r →
      r.expiryTime ≤ now := by
  intro r hr
  rcases hg : storeGet s actor with _ | right
  · rw [executeChainMode_of_check_none config s s actor target now month day randSeconds
      variation muteOk (checkChainReactionRight_of_none s actor now hg)] at hr
    rw [hg] at hr
    cases hr
  · by_cases hexp : now < right.expiryTime
    · rw [executeChainMode_of_check_some config s (storeDelete s actor) actor target now
        month day randSeconds variation muteOk right
        (checkChainReactionRight_of_valid s actor now right hg hexp)] at hr
      by_cases hOk : muteOk
      · rw [if_pos hOk] at hr
        simp only at hr
        by_cases hcr : config.clag.enableChainReaction
        · rw [if_pos hcr] at hr
          unfold grantChainReactionRight at hr
          rw [storeGet_set_other _ _ _ _ hne, storeGet_delete_self] at hr
          cases hr
        · rw [if_neg hcr] at hr
          rw [storeGet_delete_self] at hr
          cases hr
      · rw [if_neg hOk] at hr
        simp only at hr
        rw [storeGet_delete_self] at hr
        cases hr
    · rw [executeChainMode_of_check_none config s s actor target now month day randSeconds
        variation muteOk (checkChainReactionRight_of_expired s actor now right hg hexp)] at hr
      rw [hg] at hr
      cases hr
      linarith [not_lt.mp hexp]

/-- Claim C2: a ChainReactionRight is consumed at most once.  After one
exercise of the chain command by `actor` (against a target other than
themself, as the command handler enforces), a second exercise by the same
actor at any later time — with no new grant in between — reports "no right"
(its whole trace is that message) and applies no mute.  Moreover the right
is deleted before the mute is applied: any trace containing an `applyMute`
event starts with the `consumeRight` deletion. -/
theorem chain_right_at_most_once (config : Config) (s : ChainStore)
    (actor target target' : String) (now₁ now₂ : ℚ)
    (month day month' day' : ℕ) (randSeconds randSeconds' : ℤ)
    (variation variation' : ℚ) (muteOk muteOk' : Bool)
    (hne : target ≠ actor) (hnow : now₁ ≤ now₂) :
    ((executeChainMode config
        (executeChainMode config s actor target now₁ month day randSeconds variation muteOk).2.1
        actor target' now₂ month' day' randSeconds' variation' muteOk').1 = false ∧
      (executeChainMode config
        (executeChainMode config s actor target now₁ month day randSeconds variation muteOk).2.1
        actor target' now₂ month' day' randSeconds' variation' muteOk').2.2 =
        [.sendNoRight]) ∧
    ((∃ t d, ChainEvent.applyMute t d ∈
        (executeChainMode config s actor target now₁ month day randSeconds variation muteOk).2.2) →
      (executeChainMode config s actor target now₁ month day randSeconds variation muteOk).2.2.head?
        = some (.consumeRight actor)) := by
  have hcons := executeChainMode_consumes config s actor target now₁ month day
    randSeconds variation muteOk hne
  constructor
  · have hcheck : checkChainReactionRight
        (executeChainMode config s actor target now₁ month day randSeconds variation muteOk).2.1
        actor now₂ =
        (none,
         (executeChainMode config s actor target now₁ month day randSeconds variation muteOk).2.1) := by
      rcases hg : storeGet (executeChainMode config s actor target now₁ month day randSeconds
          variation muteOk).2.1 actor with _ | right
      · exact checkChainReactionRight_of_none _ _ _ hg
      · exact checkChainReactionRight_of_expired _ _ _ right hg
          (by linarith [hcons right hg])
    rw [executeChainMode_of_check_none config _ _ actor target' now₂ month' day'
      randSeconds' variation' muteOk' hcheck]
    exact ⟨rfl, rfl⟩
  · intro ⟨t, d, hmem⟩
    rcases hg : storeGet s actor with _ | right
    · rw [executeChainMode_of_check_none config s s actor target now₁ month day randSeconds
        variation muteOk (checkChainReactionRight_of_none s actor now₁ hg)] at hmem ⊢
      simp at hmem
    · by_cases hexp : now₁ < right.expiryTime
      · rw [executeChainMode_of_check_some config s (storeDelete s actor) actor target now₁
          month day randSeconds variation muteOk right
          (checkChainReactionRight_of_valid s actor now₁ right hg hexp)] at hmem ⊢
        by_cases hOk : muteOk
        · rw [if_pos hOk]
          rfl
        · rw [if_neg hOk]
          rfl
      · rw [executeChainMode_of_check_none config s s actor target now₁ month day randSeconds
          variation muteOk (checkChainReactionRight_of_expired s actor now₁ right hg hexp)]
          at hmem ⊢
        simp at hmem

/-- Concrete store: "alice" holds a right granted by "bob", expiring at
time 1000. -/
def chainStoreW : ChainStore := [("alice", ⟨1000, "bob"⟩)]

/-- Witness for `chain_right_at_most_once`: "alice" exercises her right
against "bob" at time 0 (mute succeeds), then tries again at time 0. -/
theorem chain_right_at_most_once_witness :
    ((executeChainMode durationCfg
        (executeChainMode durationCfg chainStoreW "alice" "bob" 0 2 2 600 0 true).2.1
        "alice" "bob" 0 2 2 600 0 true).1 = false ∧
      (executeChainMode durationCfg
        (executeChainMode durationCfg chainStoreW "alice" "bob" 0 2 2 600 0 true).2.1
        "alice" "bob" 0 2 2 600 0 true).2.2 = [.sendNoRight]) ∧
    ((∃ t d, ChainEvent.applyMute t d ∈
        (executeChainMode durationCfg chainStoreW "alice" "bob" 0 2 2 600 0 true).2.2) →
      (executeChainMode durationCfg chainStoreW "alice" "bob" 0 2 2 600 0 true).2.2.head?
        = some (.consumeRight "alice")) :=
  chain_right_at_most_once durationCfg chainStoreW "alice" "bob" "bob" 0 0 2 2 2 2
    600 600 0 0 true true (by decide) (by norm_num)

/-! ## Normal-mode mute resolution (`handleNormalMode`,
`src/clag/index.ts` lines 100–183) and the roulette redraw
(`selectFinalTarget`, lines 345–375)

`Random().bool(p)` draws are modelled by the drawn uniform real and the
comparison `r < p`; the external mute call's outcome is `muteOk`.  The
immunity store maps user id to expiry timestamp (ms, ℚ). -/

/-- Source `new Random().bool(p)` with the drawn uniform `r ∈ [0,1)` explicit. -/
def jsBool (p r : ℚ) : Bool := decide (r < p)

/-- Source `hasImmunity` (`src/clag/utils.ts` lines 117–121):
`expiry ? expiry > Date.now() : false`. -/
def hasImmunity (imm : List (String × ℚ)) (userId : String) (now : ℚ) : Bool :=
  match storeGet imm userId with
  | some expiry => decide (now < expiry)
  | none => false

/-- Observable actions of `handleNormalMode`, in program order. -/
inductive NormalEvent where
  | applyMute (target : String) (duration : ℚ)
  | announceSelfPunishment
  | announceBackfire
  | announceImmunity (target : String)
  | sendNoValidMembers
  | showEffect (target : String) (critical targetSelected : Bool)
  | recordMute (target : String)
  | grantChain (userId sourceUser : String)
  | grantImmunity (target : String)
deriving Repr, DecidableEq

/-- Source `handleNormalMode` (`src/clag/index.ts` lines 100–183) as its trace of
observable actions: self-target shortcut; backfire on a failed success roll
(muting the actor, with announcement/record/chain-grant only when the mute
succeeded and special effects are on); otherwise target finalization via
`determineFinalTarget`, the immunity check (gated on special effects), the
critical roll, duration computation, the mute attempt, and the post-effects
on success. -/
def handleNormalMode (config : Config) (imm : List (String × ℚ)) (now : ℚ)
    (actor : String) (inputTargetId : Option String) (duration : Option ℚ)
    (probRand critRand immunityRand : ℚ)
    (cache : Option CacheEntry) (cacheNow : ℤ) (fetch : Option (List (Option String)))
    (selfId : String) (idx : ℕ) (month day : ℕ) (randSeconds : ℤ) (variation : ℚ)
    (muteOk : Bool) : List NormalEvent :=
  if inputTargetId = some actor then
    .applyMute actor (calculateMuteDuration config month day duration false randSeconds variation)
      :: (if config.clag.enableSpecialEffects then [.announceSelfPunishment] else [])
  else if ¬ jsBool config.probability probRand then
    .applyMute actor (calculateMuteDuration config month day duration false randSeconds variation)
      :: (if muteOk && config.clag.enableSpecialEffects then
            .announceBackfire :: .recordMute actor ::
              (if config.clag.enableChainReaction
               then [.grantChain actor (inputTargetId.getD "system")] else [])
          else [])
  else
    match (determineFinalTarget inputTargetId cache cacheNow fetch selfId actor idx).1 with
    | .aborted => [.sendNoValidMembers]
    | .chosen finalTarget =>
      if hasImmunity imm finalTarget now && config.clag.enableSpecialEffects then
        [.announceImmunity finalTarget]
      else
        let isCritical := config.clag.enableSpecialEffects &&
          jsBool config.clag.criticalHitProbability critRand
        .applyMute finalTarget
            (calculateMuteDuration config month day duration isCritical randSeconds variation)
          :: (if muteOk then
                (if config.clag.enableSpecialEffects
                 then [.showEffect finalTarget isCritical inputTargetId.isSome] else []) ++
                .recordMute finalTarget ::
                (if config.clag.enableChainReaction then [.grantChain finalTarget actor] else []) ++
                (if config.clag.enableSpecialEffects &&
                    jsBool config.clag.immunityProbability immunityRand
                 then [.grantImmunity finalTarget] else [])
              else [])

/-- Source `selectFinalTarget` (`src/clag/index.ts` lines 345–375): draw a victim
from the roulette participants; if that victim holds immunity, announce it
and re-draw once among the remaining participants (aborting when none
remain); the re-drawn victim's immunity is not checked again.  The critical
roll happens after selection. -/
def selectFinalTarget (participants : List String) (imm : List (String × ℚ)) (now : ℚ)
    (idx1 idx2 : ℕ) (specialEffects : Bool) (critP critRand : ℚ) :
    Option String × Bool :=
  let targetId := participants.getD idx1 ""
  if hasImmunity imm targetId now then
    let newParticipants := participants.filter (· ≠ targetId)
    if newParticipants = [] then (none, false)
    else (some (newParticipants.getD idx2 ""),
      specialEffects && jsBool critP critRand)
  else (some targetId, specialEffects && jsBool critP critRand)

/-- Claim C3 (amended): when special effects are enabled, a mute-resolution
target holding an unexpired ImmunityRecord — whether explicitly named or
drawn at random from the roster — is never the finally applied mute target
on the normal path: the operation stops at the immunity announcement with
no mute attempt, and once the record has expired (or is absent) the target
is muted again.  The roulette path re-draws once, excluding the first-drawn
immune party (the re-drawn victim belongs to the remaining participants),
and aborts when no other participant remains; the re-drawn victim's
immunity is not checked again, and with special effects disabled the normal
path skips the immunity check entirely (see the counterexample). -/
theorem immunity_exclusivity (config : Config) (imm : List (String × ℚ)) (now : ℚ)
    (actor t : String) (duration : Option ℚ) (probRand critRand immunityRand : ℚ)
    (cache : Option CacheEntry) (cacheNow : ℤ) (fetch : Option (List (Option String)))
    (selfId : String) (idx : ℕ) (month day : ℕ) (randSeconds : ℤ) (variation : ℚ)
    (muteOk : Bool) (participants : List String) (idx1 idx2 : ℕ)
    (hne : t ≠ actor) (hroll : jsBool config.probability probRand = true) :
    (config.clag.enableSpecialEffects = true → hasImmunity imm t now = true →
      handleNormalMode config imm now actor (some t) duration probRand critRand immunityRand
          cache cacheNow fetch selfId idx month day randSeconds variation muteOk =
        [.announceImmunity t] ∧
      ∀ u d, NormalEvent.applyMute u d ∉
        handleNormalMode config imm now actor (some t) duration probRand critRand immunityRand
          cache cacheNow fetch selfId idx month day randSeconds variation muteOk) ∧
    (hasImmunity imm t now = false →
      NormalEvent.applyMute t
          (calculateMuteDuration config month day duration
            (config.clag.enableSpecialEffects &&
              jsBool config.clag.criticalHitProbability critRand) randSeconds variation) ∈
        handleNormalMode config imm now actor (some t) duration probRand critRand immunityRand
          cache cacheNow fetch selfId idx month day randSeconds variation muteOk) ∧
    (hasImmunity imm (participants.getD idx1 "") now = true →
      participants.filter (· ≠ participants.getD idx1 "") ≠ [] →
      idx2 < (participants.filter (· ≠ participants.getD idx1 "")).length →
      ∃ u, (selectFinalTarget participants imm now idx1 idx2
          config.clag.enableSpecialEffects config.clag.criticalHitProbability critRand).1 =
            some u ∧
        u ∈ participants ∧ u ≠ participants.getD idx1 "") ∧
    (hasImmunity imm (participants.getD idx1 "") now = true →
      participants.filter (· ≠ participants.getD idx1 "") = [] →
      (selectFinalTarget participants imm now idx1 idx2
        config.clag.enableSpecialEffects config.clag.criticalHitProbability critRand).1 =
          none) ∧
    (∀ finalTarget, config.clag.enableSpecialEffects = true →
      (determineFinalTarget (none : Option String) cache cacheNow fetch selfId actor idx).1 =
        .chosen finalTarget →
      hasImmunity imm finalTarget now = true →
      handleNormalMode config imm now actor none duration probRand critRand immunityRand
          cache cacheNow fetch selfId idx month day randSeconds variation muteOk =
        [.announceImmunity finalTarget] ∧
      ∀ u d, NormalEvent.applyMute u d ∉
        handleNormalMode config imm now actor none duration probRand critRand immunityRand
          cache cacheNow fetch selfId idx month day randSeconds variation muteOk) ∧
    (∀ finalTarget,
      (determineFinalTarget (none : Option String) cache cacheNow fetch selfId actor idx).1 =
        .chosen finalTarget →
      hasImmunity imm finalTarget now = false →
      NormalEvent.applyMute finalTarget
          (calculateMuteDuration config month day duration
            (config.clag.enableSpecialEffects &&
              jsBool config.clag.criticalHitProbability critRand) randSeconds variation) ∈
        handleNormalMode config imm now actor none duration probRand critRand immunityRand
          cache cacheNow fetch selfId idx month day randSeconds variation muteOk) := by
  have hsel : (some t : Option String) = some actor ↔ False := by
    simp [hne]
  refine ⟨?_, ?_, ?_, ?_, ?_, ?_⟩
  · intro hse himm
    have htr : handleNormalMode config imm now actor (some t) duration probRand critRand
        immunityRand cache cacheNow fetch selfId idx month day randSeconds variation muteOk =
        [.announceImmunity t] := by
      unfold handleNormalMode
      rw [if_neg (by simp [hne]), if_neg (by simp [hroll])]
      show (if hasImmunity imm t now && config.clag.enableSpecialEffects then _ else _) = _
      rw [if_pos (by rw [himm, hse]; rfl)]
    refine ⟨htr, ?_⟩
    intro u d hmem
    rw [htr] at hmem
    simp at hmem
  · intro himm
    unfold handleNormalMode
    rw [if_neg (by simp [hne]), if_neg (by simp [hroll])]
    show NormalEvent.applyMute t _ ∈
      (if hasImmunity imm t now && config.clag.enableSpecialEffects then _ else _)
    rw [if_neg (by rw [himm]; simp)]
    exact List.mem_cons_self _ _
  · intro himm hne' hidx
    unfold selectFinalTarget
    rw [if_pos himm]
    simp only
    rw [if_neg hne']
    refine ⟨(participants.filter (· ≠ participants.getD idx1 "")).getD idx2 "", rfl, ?_, ?_⟩
    · have : (participants.filter (· ≠ participants.getD idx1 "")).getD idx2 "" =
          (participants.filter (· ≠ participants.getD idx1 "")).get ⟨idx2, hidx⟩ :=
        List.getD_eq_getElem _ "" hidx
      rw [this]
      exact List.mem_of_mem_filter (List.get_mem _ idx2 hidx)
    · have hmem : (participants.filter (· ≠ participants.getD idx1 "")).getD idx2 "" ∈
          participants.filter (· ≠ participants.getD idx1 "") := by
        have : (participants.filter (· ≠ participants.getD idx1 "")).getD idx2 "" =
            (participants.filter (· ≠ participants.getD idx1 "")).get ⟨idx2, hidx⟩ :=
          List.getD_eq_getElem _ "" hidx
        rw [this]
        exact List.get_mem _ idx2 hidx
      have := List.of_mem_filter hmem
      simpa using this
  · intro himm hempty
    unfold selectFinalTarget
    rw [if_pos himm]
    simp only
    rw [if_pos hempty]
  · intro finalTarget hse hchosen himm
    have htr : handleNormalMode config imm now actor none duration probRand critRand
        immunityRand cache cacheNow fetch selfId idx month day randSeconds variation muteOk =
        [.announceImmunity finalTarget] := by
      unfold handleNormalMode
      rw [if_neg (by simp), if_neg (by simp [hroll]), hchosen]
      show (if hasImmunity imm finalTarget now && config.clag.enableSpecialEffects
        then _ else _) = _
      rw [if_pos (by rw [himm, hse]; rfl)]
    refine ⟨htr, ?_⟩
    intro u d hmem
    rw [htr] at hmem
    simp at hmem
  · intro finalTarget hchosen himm
    unfold handleNormalMode
    rw [if_neg (by simp), if_neg (by simp [hroll]), hchosen]
    show NormalEvent.applyMute finalTarget _ ∈
      (if hasImmunity imm finalTarget now && config.clag.enableSpecialEffects then _ else _)
    rw [if_neg (by rw [himm]; simp)]
    exact List.mem_cons_self _ _

/-- Source `durationCfg` with special effects enabled (probability stays 1, so the
success roll with draw 0 succeeds). -/
def immunityCfg : Config :=
  { durationCfg with clag := { durationCfg.clag with enableSpecialEffects := true } }

/-- Witness for `immunity_exclusivity`: actor "alice" targets immune "bob"
(immunity expiring at 1000, now 0) under a probability-1 success roll with
special effects on; roulette participants ["bob", "carol"], first draw
"bob". -/
theorem immunity_exclusivity_witness :
    ((immunityCfg.clag.enableSpecialEffects = true) →
      hasImmunity [("bob", 1000)] "bob" (0 : ℚ) = true →
      handleNormalMode immunityCfg [("bob", 1000)] 0 "alice" (some "bob") none 0 0 1
          none 0 none "bot" 0 2 2 600 0 true =
        [.announceImmunity "bob"] ∧
      ∀ u d, NormalEvent.applyMute u d ∉
        handleNormalMode immunityCfg [("bob", 1000)] 0 "alice" (some "bob") none 0 0 1
          none 0 none "bot" 0 2 2 600 0 true) ∧
    (hasImmunity [("bob", 1000)] "bob" (0 : ℚ) = false →
      NormalEvent.applyMute "bob"
          (calculateMuteDuration immunityCfg 2 2 none
            (immunityCfg.clag.enableSpecialEffects &&
              jsBool immunityCfg.clag.criticalHitProbability 0) 600 0) ∈
        handleNormalMode immunityCfg [("bob", 1000)] 0 "alice" (some "bob") none 0 0 1
          none 0 none "bot" 0 2 2 600 0 true) ∧
    (hasImmunity [("bob", 1000)] (["bob", "carol"].getD 0 "") (0 : ℚ) = true →
      ["bob", "carol"].filter (· ≠ ["bob", "carol"].getD 0 "") ≠ [] →
      0 < (["bob", "carol"].filter (· ≠ ["bob", "carol"].getD 0 "")).length →
      ∃ u, (selectFinalTarget ["bob", "carol"] [("bob", 1000)] 0 0 0
          immunityCfg.clag.enableSpecialEffects immunityCfg.clag.criticalHitProbability 0).1 =
            some u ∧
        u ∈ ["bob", "carol"] ∧ u ≠ ["bob", "carol"].getD 0 "") ∧
    (hasImmunity [("bob", 1000)] (["bob", "carol"].getD 0 "") (0 : ℚ) = true →
      ["bob", "carol"].filter (· ≠ ["bob", "carol"].getD 0 "") = [] →
      (selectFinalTarget ["bob", "carol"] [("bob", 1000)] 0 0 0
        immunityCfg.clag.enableSpecialEffects immunityCfg.clag.criticalHitProbability 0).1 =
          none) ∧
    (∀ finalTarget, immunityCfg.clag.enableSpecialEffects = true →
      (determineFinalTarget (none : Option String) none 0 none "bot" "alice" 0).1 =
        .chosen finalTarget →
      hasImmunity [("bob", 1000)] finalTarget (0 : ℚ) = true →
      handleNormalMode immunityCfg [("bob", 1000)] 0 "alice" none none 0 0 1
          none 0 none "bot" 0 2 2 600 0 true =
        [.announceImmunity finalTarget] ∧
      ∀ u d, NormalEvent.applyMute u d ∉
        handleNormalMode immunityCfg [("bob", 1000)] 0 "alice" none none 0 0 1
          none 0 none "bot" 0 2 2 600 0 true) ∧
    (∀ finalTarget,
      (determineFinalTarget (none : Option String) none 0 none "bot" "alice" 0).1 =
        .chosen finalTarget →
      hasImmunity [("bob", 1000)] finalTarget (0 : ℚ) = false →
      NormalEvent.applyMute finalTarget
          (calculateMuteDuration immunityCfg 2 2 none
            (immunityCfg.clag.enableSpecialEffects &&
              jsBool immunityCfg.clag.criticalHitProbability 0) 600 0) ∈
        handleNormalMode immunityCfg [("bob", 1000)] 0 "alice" none none 0 0 1
          none 0 none "bot" 0 2 2 600 0 true) :=
  immunity_exclusivity immunityCfg [("bob", 1000)] 0 "alice" "bob" none 0 0 1
    none 0 none "bot" 0 2 2 600 0 true ["bob", "carol"] 0 0
    (by decide) (by decide)

/-- Counterexample to claim C3 as stated: with special effects disabled
(`enableSpecialEffects = false`, as in `durationCfg`), the targeted normal
path skips the immunity check entirely — "bob" holds an unexpired
ImmunityRecord yet is the finally applied mute target. -/
theorem immune_target_muted_without_special_effects :
    hasImmunity [("bob", 1000)] "bob" (0 : ℚ) = true ∧
    NormalEvent.applyMute "bob" (calculateMuteDuration durationCfg 2 2 none false 600 0) ∈
      handleNormalMode durationCfg [("bob", 1000)] 0 "alice" (some "bob") none 0 0 1
        none 0 none "bot" 0 2 2 600 0 true := by
  constructor
  · decide
  · unfold handleNormalMode
    rw [if_neg (by decide), if_neg (by decide)]
    show NormalEvent.applyMute "bob" _ ∈
      (if hasImmunity [("bob", 1000)] "bob" 0 && durationCfg.clag.enableSpecialEffects
       then _ else _)
    rw [if_neg (by decide)]
    show NormalEvent.applyMute "bob" _ ∈
      NormalEvent.applyMute "bob"
        (calculateMuteDuration durationCfg 2 2 none
          (durationCfg.clag.enableSpecialEffects &&
            jsBool durationCfg.clag.criticalHitProbability 0) 600 0) :: _
    have : (durationCfg.clag.enableSpecialEffects &&
        jsBool durationCfg.clag.criticalHitProbability 0) = false := by decide
    rw [this]
    exact List.mem_cons_self _ _

/-- Claim C4 (amended): for every other-directed normal-mode attempt, when
the backfire roll succeeds — in particular always, when the configured
success probability is 0 (backfire rate forced to 1.0) — the actor themself
is muted and the named target never is: every mute event in the trace
targets the actor.  When the self-mute succeeds *and special effects are
enabled*, the backfire effect is announced and the mute recorded (the
announcement and record are skipped when `enableSpecialEffects` is off —
see the counterexample). -/
theorem backfire_reflects_to_actor (config : Config) (imm : List (String × ℚ)) (now : ℚ)
    (actor t : String) (duration : Option ℚ) (probRand critRand immunityRand : ℚ)
    (cache : Option CacheEntry) (cacheNow : ℤ) (fetch : Option (List (Option String)))
    (selfId : String) (idx : ℕ) (month day : ℕ) (randSeconds : ℤ) (variation : ℚ)
    (muteOk : Bool)
    (hne : t ≠ actor) (hp : config.probability = 0) (hr : 0 ≤ probRand) :
    NormalEvent.applyMute actor
        (calculateMuteDuration config month day duration false randSeconds variation) ∈
      handleNormalMode config imm now actor (some t) duration probRand critRand immunityRand
        cache cacheNow fetch selfId idx month day randSeconds variation muteOk ∧
    (∀ u d, NormalEvent.applyMute u d ∈
        handleNormalMode config imm now actor (some t) duration probRand critRand immunityRand
          cache cacheNow fetch selfId idx month day randSeconds variation muteOk →
      u = actor) ∧
    (muteOk = true → config.clag.enableSpecialEffects = true →
      NormalEvent.announceBackfire ∈
        handleNormalMode config imm now actor (some t) duration probRand critRand immunityRand
          cache cacheNow fetch selfId idx month day randSeconds variation muteOk ∧
      NormalEvent.recordMute actor ∈
        handleNormalMode config imm now actor (some t) duration probRand critRand immunityRand
          cache cacheNow fetch selfId idx month day randSeconds variation muteOk) := by
  have hfail : jsBool config.probability probRand = false := by
    unfold jsBool
    rw [hp]
    simp
    linarith
  have htr : handleNormalMode config imm now actor (some t) duration probRand critRand
      immunityRand cache cacheNow fetch selfId idx month day randSeconds variation muteOk =
      NormalEvent.applyMute actor
          (calculateMuteDuration config month day duration false randSeconds variation)
        :: (if muteOk && config.clag.enableSpecialEffects then
              NormalEvent.announceBackfire :: NormalEvent.recordMute actor ::
                (if config.clag.enableChainReaction
                 then [NormalEvent.grantChain actor ((some t : Option String).getD "system")]
                 else [])
            else []) := by
    unfold handleNormalMode
    rw [if_neg (by simp [hne]), if_pos (by rw [hfail]; simp)]
  refine ⟨?_, ?_, ?_⟩
  · rw [htr]
    exact List.mem_cons_self _ _
  · intro u d hmem
    rw [htr] at hmem
    rcases List.mem_cons.mp hmem with heq | htail
    · cases heq
      rfl
    · by_cases hc : muteOk && config.clag.enableSpecialEffects
      · rw [if_pos hc] at htail
        by_cases hcr : config.clag.enableChainReaction
        · rw [if_pos hcr] at htail
          simp at htail
        · rw [if_neg hcr] at htail
          simp at htail
      · rw [if_neg hc] at htail
        simp at htail
  · intro hOk hse
    rw [htr, if_pos (by rw [hOk, hse]; rfl)]
    exact ⟨List.mem_cons_of_mem _ (List.mem_cons_self _ _),
      List.mem_cons_of_mem _ (List.mem_cons_of_mem _ (List.mem_cons_self _ _))⟩

/-- Source `immunityCfg` with success probability 0: every other-directed attempt
backfires. -/
def backfireCfg : Config := { immunityCfg with probability := 0 }

/-- Witness for `backfire_reflects_to_actor`: "alice" targets "bob" under a
forced backfire (probability 0), special effects on, mute succeeding. -/
theorem backfire_reflects_to_actor_witness :
    NormalEvent.applyMute "alice" (calculateMuteDuration backfireCfg 2 2 none false 600 0) ∈
      handleNormalMode backfireCfg [] 0 "alice" (some "bob") none 0 0 1
        none 0 none "bot" 0 2 2 600 0 true ∧
    (∀ u d, NormalEvent.applyMute u d ∈
        handleNormalMode backfireCfg [] 0 "alice" (some "bob") none 0 0 1
          none 0 none "bot" 0 2 2 600 0 true →
      u = "alice") ∧
    (true = true → backfireCfg.clag.enableSpecialEffects = true →
      NormalEvent.announceBackfire ∈
        handleNormalMode backfireCfg [] 0 "alice" (some "bob") none 0 0 1
          none 0 none "bot" 0 2 2 600 0 true ∧
      NormalEvent.recordMute "alice" ∈
        handleNormalMode backfireCfg [] 0 "alice" (some "bob") none 0 0 1
          none 0 none "bot" 0 2 2 600 0 true) :=
  backfire_reflects_to_actor backfireCfg [] 0 "alice" "bob" none 0 0 1
    none 0 none "bot" 0 2 2 600 0 true (by decide) (by decide) (by norm_num)

/-- Source `backfireCfg` with special effects disabled. -/
def backfirePlainCfg : Config := { durationCfg with probability := 0 }

/-- Counterexample to claim C4 as stated: with special effects disabled, a
successful backfire self-mute is neither announced nor recorded — the trace
is exactly the self-mute, with no backfire announcement and no history
record, although the mute succeeded (`muteOk = true`). -/
theorem backfire_not_recorded_without_special_effects :
    handleNormalMode backfirePlainCfg [] 0 "alice" (some "bob") none 0 0 1
        none 0 none "bot" 0 2 2 600 0 true =
      [NormalEvent.applyMute "alice"
        (calculateMuteDuration backfirePlainCfg 2 2 none false 600 0)] ∧
    NormalEvent.announceBackfire ∉
      handleNormalMode backfirePlainCfg [] 0 "alice" (some "bob") none 0 0 1
        none 0 none "bot" 0 2 2 600 0 true ∧
    NormalEvent.recordMute "alice" ∉
      handleNormalMode backfirePlainCfg [] 0 "alice" (some "bob") none 0 0 1
        none 0 none "bot" 0 2 2 600 0 true := by
  have htr : handleNormalMode backfirePlainCfg [] 0 "alice" (some "bob") none 0 0 1
      none 0 none "bot" 0 2 2 600 0 true =
      [NormalEvent.applyMute "alice"
        (calculateMuteDuration backfirePlainCfg 2 2 none false 600 0)] := by
    unfold handleNormalMode
    rw [if_neg (by decide), if_pos (by decide)]
    rw [if_neg (by decide)]
  refine ⟨htr, ?_, ?_⟩
  · rw [htr]
    simp
  · rw [htr]
    simp

/-! ## Roulette sessions (`src/repeat.ts` lines 165–446)

One session per (platform, channel); the channel key is fixed, so the
per-key cache slot is an `Option RouletteSession`.  The comparator-based
shuffle (`sort(() => Math.random() - 0.5)`) always yields some permutation
of its input; the permutation is the explicit `shuffled` parameter. -/

structure RouletteSession where
  initiator : String
  participants : Finset String
  maxParticipants : ℕ
  bulletCount : ℕ
  durationOverride : Option ℚ
deriving DecidableEq

/-- Source `maxPlayers = Math.min(Math.max(2, options.players), 10)`
(`src/repeat.ts` line 209). -/
def clampPlayers (players : ℤ) : ℤ := min (max 2 players) 10

/-- Source `bulletCount = Math.min(Math.max(1, options.bullets), maxPlayers - 1)`
(`src/repeat.ts` line 210). -/
def clampBullets (bullets maxPlayers : ℤ) : ℤ := min (max 1 bullets) (maxPlayers - 1)

/-- Source `createRouletteSession` (`src/repeat.ts` lines 254–282), with the
command-level clamps applied: the initiator is auto-enrolled. -/
def createRouletteSession (initiator : String) (players bullets : ℤ)
    (durationOverride : Option ℚ) : RouletteSession :=
  { initiator := initiator
  , participants := {initiator}
  , maxParticipants := (clampPlayers players).toNat
  , bulletCount := (clampBullets bullets (clampPlayers players)).toNat
  , durationOverride := durationOverride }

/-- Source `joinRouletteSession` (`src/repeat.ts` lines 287–310): no session — not
joined; already enrolled — no-op; otherwise add the joiner and, at
capacity (`participants.size >= maxParticipants`), resolve immediately
(the session is deleted by `executeRoulette`).  Returns
(joined, session slot afterwards, resolved now). -/
def joinRouletteSession (s : Option RouletteSession) (u : String) :
    Bool × Option RouletteSession × Bool :=
  match s with
  | none => (false, none, false)
  | some rs =>
    if u ∈ rs.participants then (false, some rs, false)
    else if rs.maxParticipants ≤ (insert u rs.participants).card then (true, none, true)
    else (true, some { rs with participants := insert u rs.participants }, false)

/-- Source `spinRoulette` (`src/repeat.ts` lines 362–371) on the already-shuffled
participant array: victims are the first `bulletCount`, survivors the rest. -/
def spinRoulette (shuffled : List String) (bulletCount : ℕ) : List String × List String :=
  (shuffled.take bulletCount, shuffled.drop bulletCount)

/-- Source `executeRoulette` (`src/repeat.ts` lines 334–357): the session slot is
cleared first; with fewer than 2 participants the game is cancelled with no
mutes, otherwise the shuffled participants are split by `spinRoulette` and
each victim is muted. -/
def executeRoulette (s : Option RouletteSession) (shuffled : List String) :
    Option (List String × List String) × Option RouletteSession :=
  match s with
  | none => (none, none)
  | some rs =>
    if rs.participants.card < 2 then (none, none)
    else (some (spinRoulette shuffled rs.bulletCount), none)

/-- The session slot after a sequence of join events. -/
def joinSteps (s : Option RouletteSession) (ops : List String) : Option RouletteSession :=
  ops.foldl (fun st u => (joinRouletteSession st u).2.1) s

/-- Live-session invariant: strictly below capacity. -/
def belowCapacity (s : Option RouletteSession) : Prop :=
  ∀ rs, s = some rs → rs.participants.card < rs.maxParticipants

theorem joinRouletteSession_some (rs : RouletteSession) (u : String) :
    joinRouletteSession (some rs) u =
      (if u ∈ rs.participants then (false, some rs, false)
       else if rs.maxParticipants ≤ (insert u rs.participants).card then (true, none, true)
       else (true, some { rs with participants := insert u rs.participants }, false)) := rfl

theorem executeRoulette_some (rs : RouletteSession) (shuffled : List String) :
    executeRoulette (some rs) shuffled =
      (if rs.participants.card < 2 then (none, none)
       else (some (spinRoulette shuffled rs.bulletCount), none)) := rfl

theorem joinRouletteSession_preserves (s : Option RouletteSession) (u : String)
    (h : belowCapacity s) : belowCapacity (joinRouletteSession s u).2.1 := by
  intro rs' hrs'
  match s with
  | none => cases hrs'
  | some rs =>
    rw [joinRouletteSession_some] at hrs'
    by_cases hmem : u ∈ rs.participants
    · rw [if_pos hmem] at hrs'
      cases hrs'
      exact h _ rfl
    · rw [if_neg hmem] at hrs'
      by_cases hcap : rs.maxParticipants ≤ (insert u rs.participants).card
      · rw [if_pos hcap] at hrs'
        cases hrs'
      · rw [if_neg hcap] at hrs'
        cases hrs'
        simpa using Nat.lt_of_not_le hcap

theorem joinSteps_preserves (ops : List String) (s : Option RouletteSession)
    (h : belowCapacity s) : belowCapacity (joinSteps s ops) := by
  induction ops generalizing s with
  | nil => exact h
  | cons u rest ih =>
    exact ih _ (joinRouletteSession_preserves s u h)

theorem createRouletteSession_belowCapacity (initiator : String) (players bullets : ℤ)
    (dur : Option ℚ) : belowCapacity (some (createRouletteSession initiator players bullets dur)) := by
  intro rs hrs
  cases hrs
  unfold createRouletteSession clampPlayers
  simp only [Finset.card_singleton]
  omega

/-- Claim C5: roulette invariants.  For any permutation `shuffled` of the
participant list `P` and bullet count `b`: the victims list has length
`min b |P|`; victims and survivors partition `shuffled`, so their multiset
union equals `P` and (as the participants come from a `Set`, hence are
distinct) they are disjoint.  Resolution with fewer than 2 participants
aborts with no victims and the session destroyed.  Starting from a freshly
created session, any sequence of join events keeps the live participant set
strictly below `maxParticipants` — so the set never exceeds the configured
maximum, a join that reaches capacity triggers immediate resolution
(deleting the session), and a duplicate join by an enrolled user is a
no-op. -/
theorem roulette_invariants (participants shuffled : List String) (b : ℕ)
    (rs : RouletteSession) (u initiator : String) (players bullets : ℤ)
    (dur : Option ℚ) (ops : List String) :
    (shuffled.Perm participants →
      (spinRoulette shuffled b).1.length = min b participants.length ∧
      (spinRoulette shuffled b).1 ++ (spinRoulette shuffled b).2 = shuffled ∧
      (((spinRoulette shuffled b).1 : Multiset String) + ((spinRoulette shuffled b).2 : Multiset String)
        = (participants : Multiset String)) ∧
      (participants.Nodup → ∀ x ∈ (spinRoulette shuffled b).1, x ∉ (spinRoulette shuffled b).2)) ∧
    (rs.participants.card < 2 → executeRoulette (some rs) shuffled = (none, none)) ∧
    (∀ rs', joinSteps (some (createRouletteSession initiator players bullets dur)) ops = some rs' →
      rs'.participants.card ≤ rs'.maxParticipants) ∧
    (u ∉ rs.participants → rs.maxParticipants ≤ (insert u rs.participants).card →
      (joinRouletteSession (some rs) u).2.2 = true ∧
      (joinRouletteSession (some rs) u).2.1 = none) ∧
    (u ∈ rs.participants → joinRouletteSession (some rs) u = (false, some rs, false)) := by
  refine ⟨?_, ?_, ?_, ?_, ?_⟩
  · intro hperm
    refine ⟨?_, List.take_append_drop b shuffled, ?_, ?_⟩
    · rw [spinRoulette]
      simp only [List.length_take]
      rw [hperm.length_eq]
    · calc ((spinRoulette shuffled b).1 : Multiset String) +
            ((spinRoulette shuffled b).2 : Multiset String)
          = ((shuffled.take b ++ shuffled.drop b : List String) : Multiset String) := by
            rw [Multiset.coe_add]
            rfl
        _ = (shuffled : Multiset String) := by rw [List.take_append_drop]
        _ = (participants : Multiset String) := Multiset.coe_eq_coe.mpr hperm
    · intro hnd x hx hx'
      have hnds : shuffled.Nodup := (hperm.nodup_iff).mpr hnd
      have : (shuffled.take b ++ shuffled.drop b).Nodup := by
        rw [List.take_append_drop]
        exact hnds
      have hdisj := (List.nodup_append.mp this).2.2
      exact hdisj hx hx'
  · intro hlt
    rw [executeRoulette_some, if_pos hlt]
  · intro rs' hrs'
    have := joinSteps_preserves ops _ (createRouletteSession_belowCapacity initiator
      players bullets dur) rs' hrs'
    omega
  · intro hmem hcap
    rw [joinRouletteSession_some, if_neg hmem, if_pos hcap]
    exact ⟨rfl, rfl⟩
  · intro hmem
    rw [joinRouletteSession_some, if_pos hmem]

end Sleep
